import Mathlib

/-!
Verification development for the auto_test_poc repository.

The definitions below are shallow embeddings of the Python sources:
  * `common/test_utils.py`  — the `Order` lifecycle state machine and the
    `GenericChecker` harness;
  * `common/fix_cli.py`     — the FIX tag=value encoder `_dict_to_fix`, the
    checksum, and the `send_message` / `_create_message` sequence-number
    handling;
  * `common/fix_msg.py`     — the alternative encoder
    `FixMessage._build_fix_string`;
  * `common/ahd_cli.py`     — the ESP client's `_prepare_msg` sequence-number
    accounting;
  * `common/ahd_msg.py`     — the `post_build` header-length patching of
    `ESPCommon`, `OrderCommon` and `AdminCommon`.

Machine integers are modelled as `Int`/`Nat` (Python integers are unbounded,
so no wrap-around is introduced), nullable Python attributes as `Option`,
and Python code that can raise (`TypeError` on `None` arithmetic,
`IndexError` on indexing an empty list) as `Option`-returning functions.
-/

namespace AutoTestPoc

/-! ## Order state machine (`common/test_utils.py`, class `Order`)

A Python attribute value: the attributes handled by the constructor's alias
table and the modification queue hold `None`, an `int` quantity, or a string
(ids, time-in-force, status).  Prices are floats in the source; every claim
we settle only moves prices around unchanged or adds them, so they are
carried as integers scaled to the tick here. -/

inductive Val : Type
  | vnone : Val
  | vint : Int → Val
  | vstr : String → Val
  deriving DecidableEq

/-- One entry of the modification queue: a Python `dict` from attribute name
to value (`Order.queue` holds a list of such dicts, initially `[{}]`). -/
abbrev AttrMap : Type := List (String × Val)

/-- Python `d.get(k)` lookup (None if the key is absent). -/
def AttrMap.find (m : AttrMap) (k : String) : Option Val :=
  match m with
  | [] => none
  | (k', v) :: rest => if k' = k then some v else AttrMap.find rest k

/-- The mutable state of an `Order` instance: the dataclass fields that the
claims touch, plus the modification queue.  `order_status` is the literal
Python string (`"new"`, `"open"`, `"closed"`). -/
structure OrderState : Type where
  order_status : String
  order_qty : Option Int
  exec_qty : Option Int
  order_price : Option Int
  cl_ord_id : Option String
  time_in_force : Option String
  queue : List AttrMap
  deriving DecidableEq

/-- A freshly constructed order (dataclass defaults after `__post_init__`
with the `orderQty`/`orderPrice` aliases supplied):
`order_status = "new"`, `exec_qty = 0`, `queue = [{}]`. -/
def mkOrder (qty : Option Int) (price : Option Int) : OrderState :=
  { order_status := "new"
    order_qty := qty
    exec_qty := some 0
    order_price := price
    cl_ord_id := none
    time_in_force := none
    queue := [[]] }

/-- `Order.open_qty` (test_utils.py lines 138-142):
`None` if `order_qty` or `exec_qty` is `None`, `0` once closed, otherwise
`order_qty - exec_qty` (note: the source has no clamping to zero). -/
def openQty (s : OrderState) : Option Int :=
  match s.order_qty, s.exec_qty with
  | some q, some e => if s.order_status = "closed" then some 0 else some (q - e)
  | _, _ => none

/-- `Order.push_modify` (lines 172-174): duplicate the top of the queue
(`self.queue[-1]` raises on an empty list: `none`). -/
def pushModify (s : OrderState) : Option OrderState :=
  match s.queue.getLast? with
  | some top => some { s with queue := s.queue ++ [top] }
  | none => none

/-- `Order._ordered` (lines 330-334) restricted to a call with no kwargs:
set `order_status := "open"`. -/
def ordered (s : OrderState) : OrderState :=
  { s with order_status := "open" }

/-- Arguments of `Order._modify` after `_normalize_kwargs`: each field is
`none` when the kwarg is absent or `None` (the source guards both with
`"k" in kwargs and kwargs["k"] is not None`). -/
structure ModifyArgs : Type where
  order_qty : Option Int := none
  d_order_qty : Option Int := none
  order_price : Option Int := none
  d_order_price : Option Int := none
  cl_ord_id : Option String := none
  time_in_force : Option String := none

/-- `Order._modify` (lines 341-364): `push_modify()` then apply the absolute
or the delta change.  The delta branches run Python `+=` on a possibly-`None`
attribute, which raises: `none` here.  `-(self.open_qty or 0)` maps a `None`
or zero `open_qty` to `0`. -/
def modify (a : ModifyArgs) (s : OrderState) : Option OrderState := do
  let s ← pushModify s
  let s ←
    match a.order_qty with
    | some v => pure { s with order_qty := some (max v 0) }
    | none =>
      match a.d_order_qty with
      | some d =>
        match s.order_qty with
        | some q =>
          let floor : Int := match openQty s with
            | some o => if o = 0 then 0 else -o
            | none => 0
          pure { s with order_qty := some (q + max d floor) }
        | none => none
      | none => pure s
  let s ←
    match a.order_price with
    | some v => pure { s with order_price := some v }
    | none =>
      match a.d_order_price with
      | some d =>
        match s.order_price with
        | some p => pure { s with order_price := some (p + d) }
        | none => none
      | none => pure s
  let s := match a.cl_ord_id with
    | some v => { s with cl_ord_id := some v }
    | none => s
  let s := match a.time_in_force with
    | some v => { s with time_in_force := some v }
    | none => s
  pure s

/-- The canonical rendering of the Python set iteration
`for attr in set(old_old) | set(self.queue[0])` of `pop_modify`: the union
of the two key sets in first-seen order.  (Each loop iteration updates one
key and distinct keys do not interact, so the set iteration order does not
affect the final queue.) -/
def keyUnion (a b : AttrMap) : List String :=
  (a.map Prod.fst ++ b.map Prod.fst).dedup

/-- Remove a key from a dict (Python `del d[k]`). -/
def AttrMap.erase (m : AttrMap) (k : String) : AttrMap :=
  m.filter (fun p => p.1 ≠ k)

/-- Insert/overwrite a key in a dict (Python `d[k] = v`). -/
def AttrMap.insert (m : AttrMap) (k : String) (v : Val) : AttrMap :=
  if (m.map Prod.fst).contains k then
    m.map (fun p => if p.1 = k then (k, v) else p)
  else m ++ [(k, v)]

/-- `d[k] -= diff` for an integer entry; `none` when the entry is missing or
not an integer (Python raises `KeyError`/`TypeError` there). -/
def AttrMap.subFrom (m : AttrMap) (k : String) (diff : Int) : Option AttrMap :=
  match m.find k with
  | some (Val.vint n) => some (m.insert k (Val.vint (n - diff)))
  | _ => none

/-- One iteration of the `pop_modify(restore=True)` loop body
(lines 180-195) for attribute `attr`, given the popped oldest entry
`old_old` and the current queue (whose head is `self.queue[0]`). -/
def popRestoreStep (old_old : AttrMap) (q : List AttrMap) (attr : String) :
    Option (List AttrMap) :=
  match q with
  | [] => none
  | front :: rest =>
    match old_old.find attr with
    | none => some (front.erase attr :: rest)
    | some oldv =>
      let fv := front.find attr
      let numericBoth : Bool :=
        (attr == "order_qty" || attr == "order_price") && oldv != Val.vnone &&
          (match fv with
           | some w => w != Val.vnone
           | none => false)
      if numericBoth then
        match oldv, fv with
        | Val.vint oldn, some (Val.vint newn) =>
          -- numeric attribute with a value both before and after: subtract
          -- the diff from every remaining entry in the history
          let diff := newn - oldn
          (front :: rest).mapM (fun m => m.subFrom attr diff)
        | _, _ => none
      else some (front.insert attr oldv :: rest)

/-- `Order.pop_modify` (lines 176-195): pop the oldest history entry; with
`restore` run the adjustment loop over `set(old_old) | set(self.queue[0])`.
Failures (`pop` from an empty list, `self.queue[0]` after the queue emptied)
are `none`. -/
def popModify (restore : Bool) (s : OrderState) : Option OrderState :=
  match s.queue with
  | [] => none
  | old_old :: rest =>
    if restore then
      match rest with
      | [] => none
      | front :: _ =>
        match (keyUnion old_old front).foldlM (popRestoreStep old_old) rest with
        | some q' => some { s with queue := q' }
        | none => none
    else some { s with queue := rest }

/-- `Order._mod_reject` (lines 380-383): `pop_modify(True)`. -/
def modReject (s : OrderState) : Option OrderState :=
  popModify true s

/-- `Order._modified` (lines 371-378) with no kwargs: `pop_modify(False)`,
then close when `open_qty <= 0` (comparing a `None` raises: `none`). -/
def modified (s : OrderState) : Option OrderState := do
  let s ← popModify false s
  match openQty s with
  | some o => pure (if o ≤ 0 then { s with order_status := "closed" } else s)
  | none => none

/-- `Order._fill` (lines 426-439) with `exec_qty = x` and no id kwargs:
`exec_qty += x` (raises on `None`), then `order_qty := max(order_qty,
exec_qty)` when both are present, then close when `open_qty <= 0`
(comparing a `None` raises: `none`). -/
def fill (x : Int) (s : OrderState) : Option OrderState := do
  let e ← s.exec_qty
  let s := { s with exec_qty := some (e + x) }
  let s := match s.order_qty, s.exec_qty with
    | some q, some e' => { s with order_qty := some (max q e') }
    | _, _ => s
  match openQty s with
  | some o => pure (if o ≤ 0 then { s with order_status := "closed" } else s)
  | none => none

end AutoTestPoc

namespace AutoTestPoc

/-- C1 (counterexample): the claimed `openQty = max(0, orderQty − execQty)`
and `openQty ≥ 0` fail on a state reached by ordinary transitions.  An order
placed for 10, confirmed, filled for 4 and then modified down to an absolute
quantity of 2 is still `"open"` with `openQty = -2`, whereas the claim
demands `max(0, 2 − 4) = 0` and nonnegativity. -/
theorem openQty_clamp_counterexample :
    (((fill 4 (ordered (mkOrder (some 10) none))) >>=
        modify { order_qty := some 2 }).map
      (fun s => (s.order_status, s.order_qty, s.exec_qty, openQty s)) =
      some ("open", some 2, some 4, some (-2))) ∧
    some (-2 : Int) ≠ some (max 0 (2 - 4 : Int)) ∧ ¬ (0 : Int) ≤ -2 :=
  ⟨by decide, by decide, by decide⟩

/-- C1 (amended): for an order with numeric `orderQty` and `execQty`, the
derived `openQty` equals `orderQty − execQty` (with no clamping to zero)
while the status is not `"closed"` and equals `0` once `"closed"`; `openQty`
is nonnegative immediately after every fill transition (the fill raises
`orderQty` up to `execQty`), but an absolute modify below `execQty` can make
it negative while the order stays open. -/
theorem openQty_unclamped_and_fill_nonneg (s : OrderState) (q e : Int)
    (hq : s.order_qty = some q) (he : s.exec_qty = some e) :
    (s.order_status ≠ "closed" → openQty s = some (q - e)) ∧
    (s.order_status = "closed" → openQty s = some 0) ∧
    (∀ x s', fill x s = some s' → ∀ v, openQty s' = some v → 0 ≤ v) := by
  obtain ⟨st, oq, ex, pr, ci, tf, qu⟩ := s
  simp only at hq he
  subst hq; subst he
  refine ⟨?_, ?_, ?_⟩
  · intro h
    simp only at h
    simp [openQty, h]
  · intro h
    simp only at h
    simp [openQty, h]
  · intro x s' hfill v hv
    simp only [fill, openQty, Option.some_bind, Option.bind_eq_bind] at hfill
    by_cases hst : st = "closed" <;>
      simp only [hst, if_pos, if_neg, ite_true, ite_false, reduceIte] at hfill
    · split_ifs at hfill <;> cases hfill <;>
        simp_all [openQty]
    · split_ifs at hfill with h0 <;> cases hfill <;>
        simp_all [openQty] <;> omega

/-- C1 witness for `openQty_unclamped_and_fill_nonneg` at the freshly
confirmed order for quantity 10. -/
theorem openQty_unclamped_and_fill_nonneg_witness :
    ((ordered (mkOrder (some 10) none)).order_status ≠ "closed" →
      openQty (ordered (mkOrder (some 10) none)) = some (10 - 0)) ∧
    ((ordered (mkOrder (some 10) none)).order_status = "closed" →
      openQty (ordered (mkOrder (some 10) none)) = some 0) ∧
    (∀ x s', fill x (ordered (mkOrder (some 10) none)) = some s' →
      ∀ v, openQty s' = some v → 0 ≤ v) :=
  openQty_unclamped_and_fill_nonneg (ordered (mkOrder (some 10) none)) 10 0 rfl rfl

/-- C2 (code bug, evaluation at the failing input): an open order for 100 at
price 10 is modified to an absolute quantity of 50 and the modification is
then rejected (`mod_reject` = `pop_modify(restore=True)`).  The source's
restore loop operates only on the queue dicts, but `_modify` writes the
instance attributes and never the queue, so every queue entry is still the
empty dict and nothing is restored: `order_qty` remains 50, not the
pre-modify 100. -/
theorem mod_reject_restores_nothing :
    (((modify { order_qty := some 50 }
          (ordered (mkOrder (some 100) (some 10)))) >>= modReject).map
      (fun s => (s.order_qty, s.order_price, s.queue)) =
      some (some 50, some 10, [[]])) ∧ (50 : Int) ≠ 100 :=
  ⟨by decide, by decide⟩

/-- C3: for an open order with numeric `orderQty` and `execQty`, a fill of
quantity `x` with `execQty + x ≥ orderQty` closes the order and leaves
`openQty = 0` (the fill adds `x` to `execQty`, raises `orderQty` up to
`execQty`, and closes because `openQty ≤ 0`). -/
theorem fill_to_completion_closes (s : OrderState) (q e x : Int)
    (hq : s.order_qty = some q) (he : s.exec_qty = some e)
    (hopen : s.order_status = "open") (hx : q ≤ e + x) :
    ∃ s', fill x s = some s' ∧ s'.order_status = "closed" ∧
      openQty s' = some 0 := by
  obtain ⟨st, oq, ex, pr, ci, tf, qu⟩ := s
  simp only at hq he hopen
  subst hq; subst he; subst hopen
  refine ⟨{ order_status := "closed", order_qty := some (max q (e + x)),
            exec_qty := some (e + x), order_price := pr, cl_ord_id := ci,
            time_in_force := tf, queue := qu }, ?_, rfl, ?_⟩
  · simp only [fill, openQty, max_eq_right hx, Option.some_bind]
    simp [hx]
  · simp [openQty]

/-- C3 witness for `fill_to_completion_closes`: a confirmed order for 10 is
filled for 10 in one shot. -/
theorem fill_to_completion_closes_witness :
    ∃ s', fill 10 (ordered (mkOrder (some 10) none)) = some s' ∧
      s'.order_status = "closed" ∧ openQty s' = some 0 :=
  fill_to_completion_closes (ordered (mkOrder (some 10) none)) 10 0 10
    rfl rfl rfl (by decide)

/-! ## Order constructor aliasing (`test_utils.py`, `Order.__post_init__`)

The constructor's argument vector: the ten snake_case dataclass fields named
in the alias table together with their camelCase alias arguments.  Any of
them may be `None`, an int or a string (`Val`). -/

structure OrderCtorArgs : Type where
  order_qty : Val
  exec_qty : Val
  order_price : Val
  cl_ord_id : Val
  dest_cl_ord_id : Val
  order_id2 : Val
  time_in_force : Val
  client_id : Val
  account_id : Val
  order_status : Val
  orderQty : Val
  execQty : Val
  orderPrice : Val
  clOrdID : Val
  destClOrdID : Val
  orderID2 : Val
  timeInForce : Val
  clientID : Val
  accountID : Val
  orderStatus : Val
  deriving DecidableEq

/-- The membership test `getattr(self, snake) in (None, 0, "new")` of
`__post_init__` (line 110); Python tuple membership compares with `==`. -/
def aliasDefaultish (v : Val) : Bool :=
  v == Val.vnone || v == Val.vint 0 || v == Val.vstr "new"

/-- The effect of one iteration of the `__post_init__` alias loop on its
snake attribute (lines 108-111):
`if camel_val is not None and getattr(self, snake) in (None, 0, "new"):
setattr(self, snake, camel_val)`. -/
def resolveAlias (camel snake : Val) : Val :=
  if camel != Val.vnone && aliasDefaultish snake then camel else snake

/-- `Order.__post_init__` (lines 94-111): the alias loop unrolled over
`alias_map` in source order.  Each iteration reads only its own camel/snake
pair and writes only its own snake field, so the sequential updates below
render the loop exactly. -/
def postInit (a0 : OrderCtorArgs) : OrderCtorArgs :=
  let a := { a0 with order_qty := resolveAlias a0.orderQty a0.order_qty }
  let a := { a with exec_qty := resolveAlias a.execQty a.exec_qty }
  let a := { a with order_price := resolveAlias a.orderPrice a.order_price }
  let a := { a with cl_ord_id := resolveAlias a.clOrdID a.cl_ord_id }
  let a := { a with dest_cl_ord_id := resolveAlias a.destClOrdID a.dest_cl_ord_id }
  let a := { a with order_id2 := resolveAlias a.orderID2 a.order_id2 }
  let a := { a with time_in_force := resolveAlias a.timeInForce a.time_in_force }
  let a := { a with client_id := resolveAlias a.clientID a.client_id }
  let a := { a with account_id := resolveAlias a.accountID a.account_id }
  let a := { a with order_status := resolveAlias a.orderStatus a.order_status }
  a

/-- C9: in the `Order` constructor, each camelCase alias is copied onto its
snake_case attribute exactly when the alias is not `None` and the snake
attribute currently holds `None`, `0` or `"new"`; hence an explicit
snake_case `0` (e.g. `exec_qty=0`) or `"new"` (`order_status='new'`) is
silently overwritten by a non-`None` alias, while any other explicit
snake_case value takes precedence. -/
theorem ctor_alias_resolution :
    (∀ a : OrderCtorArgs,
      (postInit a).order_qty = resolveAlias a.orderQty a.order_qty ∧
      (postInit a).exec_qty = resolveAlias a.execQty a.exec_qty ∧
      (postInit a).order_price = resolveAlias a.orderPrice a.order_price ∧
      (postInit a).cl_ord_id = resolveAlias a.clOrdID a.cl_ord_id ∧
      (postInit a).dest_cl_ord_id = resolveAlias a.destClOrdID a.dest_cl_ord_id ∧
      (postInit a).order_id2 = resolveAlias a.orderID2 a.order_id2 ∧
      (postInit a).time_in_force = resolveAlias a.timeInForce a.time_in_force ∧
      (postInit a).client_id = resolveAlias a.clientID a.client_id ∧
      (postInit a).account_id = resolveAlias a.accountID a.account_id ∧
      (postInit a).order_status = resolveAlias a.orderStatus a.order_status) ∧
    (∀ camel snake : Val, aliasDefaultish snake = false →
      resolveAlias camel snake = snake) ∧
    (∀ camel snake : Val, camel ≠ Val.vnone → aliasDefaultish snake = true →
      resolveAlias camel snake = camel) ∧
    (∀ snake : Val, resolveAlias Val.vnone snake = snake) ∧
    aliasDefaultish (Val.vint 0) = true ∧
    aliasDefaultish (Val.vstr "new") = true ∧
    aliasDefaultish Val.vnone = true ∧
    (∀ n : Int, n ≠ 0 → aliasDefaultish (Val.vint n) = false) := by
  refine ⟨fun a => ⟨rfl, rfl, rfl, rfl, rfl, rfl, rfl, rfl, rfl, rfl⟩,
    ?_, ?_, ?_, by decide, by decide, by decide, ?_⟩
  · intro camel snake h
    simp [resolveAlias, h]
  · intro camel snake hc h
    simp [resolveAlias, h, hc]
  · intro snake
    simp [resolveAlias]
  · intro n hn
    simp [aliasDefaultish, hn]

/-- C9 witness for `ctor_alias_resolution`: an explicit `exec_qty=0` is
overwritten by `execQty=7`, while an explicit `order_qty=5` wins over
`orderQty=9`. -/
theorem ctor_alias_resolution_witness :
    resolveAlias (Val.vint 7) (Val.vint 0) = Val.vint 7 ∧
    resolveAlias (Val.vint 9) (Val.vint 5) = Val.vint 5 :=
  ⟨ctor_alias_resolution.2.2.1 (Val.vint 7) (Val.vint 0) (by decide) (by decide),
   ctor_alias_resolution.2.1 (Val.vint 9) (Val.vint 5) (by decide)⟩

/-! ## Checker order index (`test_utils.py`, `GenericChecker.find_order_by`)

Generic association-list rendering of a Python `dict`. -/

/-- Python `d.get(k, None)`. -/
def assocGet {α β : Type} [DecidableEq α] (m : List (α × β)) (k : α) : Option β :=
  match m with
  | [] => none
  | p :: rest => if p.1 = k then some p.2 else assocGet rest k

/-- Python `d[k] = v` (overwrite in place, else append). -/
def assocInsert {α β : Type} [DecidableEq α] (m : List (α × β)) (k : α) (v : β) :
    List (α × β) :=
  if (m.map Prod.fst).contains k then
    m.map (fun p => if p.1 = k then (k, v) else p)
  else m ++ [(k, v)]

/-- A checker-tracked order, as `find_order_by` sees it: an identity plus a
bag of attributes.  `getattr(order, attrName)` for attributes the indexed
orders carry; an absent attrName reads as the `None` sentinel here (the
Python code would raise, a path the claim does not exercise). -/
structure COrder : Type where
  oid : Nat
  attrs : AttrMap
  deriving DecidableEq

def getAttr (o : COrder) (a : String) : Val :=
  (o.attrs.find a).getD Val.vnone

/-- `GenericChecker` state: `self.orders` and `self.order_hashes`. -/
structure CheckerState : Type where
  orders : List COrder
  orderHashes : List (String × List (Val × COrder))
  deriving DecidableEq

/-- The `hash_map` building loop of `find_order_by` (lines 511-513):
`for order in self.orders: hash_map[getattr(order, attrName)] = order`. -/
def buildHash (attrName : String) (orders : List COrder) :
    List (Val × COrder) :=
  orders.foldl (fun hm o => assocInsert hm (getAttr o attrName) o) []

/-- `GenericChecker.find_order_by` (lines 505-515): serve from the cached
per-attrName hash when present; otherwise build it from the current order
list, cache it, and serve from it. -/
def findOrderBy (attrName : String) (v : Val) (st : CheckerState) :
    Option COrder × CheckerState :=
  match assocGet st.orderHashes attrName with
  | some hm => (assocGet hm v, st)
  | none =>
    let hm := buildHash attrName st.orders
    (assocGet hm v,
     { st with orderHashes := assocInsert st.orderHashes attrName hm })

/-- `Order.__post_init__` line 113: `self.checker.orders.append(self)`. -/
def appendOrder (o : COrder) (st : CheckerState) : CheckerState :=
  { st with orders := st.orders ++ [o] }

def appendOrders (l : List COrder) (st : CheckerState) : CheckerState :=
  l.foldl (fun st o => appendOrder o st) st

theorem assocGet_map_overwrite {α β : Type} [DecidableEq α]
    (m : List (α × β)) (k : α) (w : β) (v : α) (o : β)
    (h : assocGet (m.map (fun p => if p.1 = k then (k, w) else p)) v = some o) :
    o = w ∨ assocGet m v = some o := by
  induction m with
  | nil => simp [assocGet] at h
  | cons p rest ih =>
    obtain ⟨a, b⟩ := p
    simp only [List.map_cons] at h
    by_cases hak : a = k
    · subst hak
      by_cases hav : a = v
      · subst hav
        simp [assocGet] at h
        exact Or.inl h.symm
      · simp [assocGet, hav] at h
        rcases ih h with h' | h'
        · exact Or.inl h'
        · right; simp [assocGet, hav, h']
    · by_cases hav : a = v
      · subst hav
        simp [assocGet, hak] at h
        right; simp [assocGet, h]
      · simp [assocGet, hak, hav] at h
        rcases ih h with h' | h'
        · exact Or.inl h'
        · right; simp [assocGet, hav, h']

theorem assocGet_append_single {α β : Type} [DecidableEq α]
    (m : List (α × β)) (k : α) (w : β) (v : α) (o : β)
    (h : assocGet (m ++ [(k, w)]) v = some o) :
    o = w ∨ assocGet m v = some o := by
  induction m with
  | nil =>
    by_cases hkv : k = v
    · simp [assocGet, hkv] at h
      exact Or.inl h.symm
    · simp [assocGet, hkv] at h
  | cons p rest ih =>
    obtain ⟨a, b⟩ := p
    by_cases hav : a = v
    · simp [assocGet, hav] at h ⊢
      exact Or.inr h
    · simp only [List.cons_append, assocGet, hav, if_neg] at h
      rcases ih h with h' | h'
      · exact Or.inl h'
      · right; simp [assocGet, hav, h']

theorem assocGet_insert_mem {α β : Type} [DecidableEq α]
    (m : List (α × β)) (k : α) (w : β) (v : α) (o : β)
    (h : assocGet (assocInsert m k w) v = some o) :
    o = w ∨ assocGet m v = some o := by
  unfold assocInsert at h
  split at h
  · exact assocGet_map_overwrite m k w v o h
  · exact assocGet_append_single m k w v o h

theorem assocGet_insert_self {α β : Type} [DecidableEq α]
    (m : List (α × β)) (k : α) (w : β) :
    assocGet (assocInsert m k w) k = some w := by
  unfold assocInsert
  split
  case isTrue hmem =>
    induction m with
    | nil => simp at hmem
    | cons p rest ih =>
      obtain ⟨a, b⟩ := p
      by_cases hak : a = k
      · simp [assocGet, hak]
      · simp only [List.map_cons, List.contains_cons] at hmem
        have h' : (List.map Prod.fst rest).contains k = true := by
          rcases (Bool.or_eq_true _ _).mp hmem with h' | h'
          · exact absurd (beq_iff_eq.mp h').symm hak
          · exact h'
        simp [assocGet, hak]
        exact ih h'
  case isFalse hmem =>
    induction m with
    | nil => simp [assocGet]
    | cons p rest ih =>
      obtain ⟨a, b⟩ := p
      have hak : a ≠ k := by
        intro hC
        apply hmem
        simp [hC]
      simp only [List.cons_append, assocGet, hak, if_neg]
      apply ih
      intro hC
      apply hmem
      simp only [List.map_cons, List.contains_cons]
      exact Bool.or_eq_true _ _ |>.mpr (Or.inr hC)

theorem buildHash_returns_member (attrName : String) :
    ∀ (orders : List COrder) (init : List (Val × COrder)) (v : Val) (o : COrder),
      assocGet (orders.foldl (fun hm o' => assocInsert hm (getAttr o' attrName) o') init) v
        = some o →
      o ∈ orders ∨ assocGet init v = some o := by
  intro orders
  induction orders with
  | nil => intro init v o h; exact Or.inr h
  | cons c rest ih =>
    intro init v o h
    simp only [List.foldl_cons] at h
    rcases ih _ v o h with h' | h'
    · exact Or.inl (List.mem_cons_of_mem _ h')
    · rcases assocGet_insert_mem init (getAttr c attrName) c v o h' with h'' | h''
      · exact Or.inl (h'' ▸ List.mem_cons_self _ _)
      · exact Or.inr h''

theorem appendOrders_orderHashes (l : List COrder) (st : CheckerState) :
    (appendOrders l st).orderHashes = st.orderHashes := by
  induction l generalizing st with
  | nil => rfl
  | cons c rest ih => simpa [appendOrders, appendOrder] using ih _

/-- C10: `find_order_by` builds the per-attrName index at most once and
never invalidates it.  If the first call for `attrName` happens on state
`st` (no cached hash yet), then after any sequence of subsequent order
appends every later `find_order_by` on the same attrName (a) answers from
the hash built over `st.orders`, (b) leaves the state unchanged (no
rebuild), and (c) returns only orders that were in the list at build time —
in particular it never returns an order appended after the first call. -/
theorem find_order_by_stale_index (st : CheckerState) (attrName : String)
    (v0 v : Val) (newOrders : List COrder)
    (hfirst : assocGet st.orderHashes attrName = none) :
    (findOrderBy attrName v
        (appendOrders newOrders (findOrderBy attrName v0 st).2)).1
      = assocGet (buildHash attrName st.orders) v ∧
    (findOrderBy attrName v
        (appendOrders newOrders (findOrderBy attrName v0 st).2)).2
      = appendOrders newOrders (findOrderBy attrName v0 st).2 ∧
    (∀ o, assocGet (buildHash attrName st.orders) v = some o →
      o ∈ st.orders) ∧
    (∀ o, o ∉ st.orders →
      (findOrderBy attrName v
          (appendOrders newOrders (findOrderBy attrName v0 st).2)).1 ≠ some o) := by
  have hstep1 : (findOrderBy attrName v0 st).2
      = { st with orderHashes :=
            assocInsert st.orderHashes attrName (buildHash attrName st.orders) } := by
    unfold findOrderBy
    rw [hfirst]
  set st2 := appendOrders newOrders (findOrderBy attrName v0 st).2 with hst2def
  have hhashes : st2.orderHashes
      = assocInsert st.orderHashes attrName (buildHash attrName st.orders) := by
    rw [hst2def, appendOrders_orderHashes, hstep1]
  have hcached : assocGet st2.orderHashes attrName
      = some (buildHash attrName st.orders) := by
    rw [hhashes]
    exact assocGet_insert_self _ _ _
  have hfind : findOrderBy attrName v st2
      = (assocGet (buildHash attrName st.orders) v, st2) := by
    unfold findOrderBy
    rw [hcached]
  have hmem : ∀ o, assocGet (buildHash attrName st.orders) v = some o →
      o ∈ st.orders := by
    intro o h
    rcases buildHash_returns_member attrName st.orders [] v o h with h' | h'
    · exact h'
    · simp [assocGet] at h'
  refine ⟨?_, ?_, hmem, ?_⟩
  · rw [hfind]
  · rw [hfind]
  · intro o ho hC
    rw [hfind] at hC
    exact ho (hmem o hC)

/-- C10 witness for `find_order_by_stale_index`: the index for `"cl_ord_id"`
is built while the checker holds one order; an order appended afterwards is
invisible to later lookups on that attrName. -/
theorem find_order_by_stale_index_witness :
    (findOrderBy "cl_ord_id" (Val.vstr "B")
        (appendOrders [⟨2, [("cl_ord_id", Val.vstr "B")]⟩]
          (findOrderBy "cl_ord_id" (Val.vstr "A")
            { orders := [⟨1, [("cl_ord_id", Val.vstr "A")]⟩], orderHashes := [] }).2)).1
      = assocGet (buildHash "cl_ord_id"
          [⟨1, [("cl_ord_id", Val.vstr "A")]⟩]) (Val.vstr "B") ∧
    (findOrderBy "cl_ord_id" (Val.vstr "B")
        (appendOrders [⟨2, [("cl_ord_id", Val.vstr "B")]⟩]
          (findOrderBy "cl_ord_id" (Val.vstr "A")
            { orders := [⟨1, [("cl_ord_id", Val.vstr "A")]⟩], orderHashes := [] }).2)).2
      = appendOrders [⟨2, [("cl_ord_id", Val.vstr "B")]⟩]
          (findOrderBy "cl_ord_id" (Val.vstr "A")
            { orders := [⟨1, [("cl_ord_id", Val.vstr "A")]⟩], orderHashes := [] }).2 ∧
    (∀ o, assocGet (buildHash "cl_ord_id"
        [⟨1, [("cl_ord_id", Val.vstr "A")]⟩]) (Val.vstr "B") = some o →
      o ∈ [(⟨1, [("cl_ord_id", Val.vstr "A")]⟩ : COrder)]) ∧
    (∀ o, o ∉ [(⟨1, [("cl_ord_id", Val.vstr "A")]⟩ : COrder)] →
      (findOrderBy "cl_ord_id" (Val.vstr "B")
          (appendOrders [⟨2, [("cl_ord_id", Val.vstr "B")]⟩]
            (findOrderBy "cl_ord_id" (Val.vstr "A")
              { orders := [⟨1, [("cl_ord_id", Val.vstr "A")]⟩], orderHashes := [] }).2)).1
        ≠ some o) :=
  find_order_by_stale_index
    { orders := [⟨1, [("cl_ord_id", Val.vstr "A")]⟩], orderHashes := [] }
    "cl_ord_id" (Val.vstr "A") (Val.vstr "B")
    [⟨2, [("cl_ord_id", Val.vstr "B")]⟩] (by decide)

/-! ## FIX tag=value encoders (`common/fix_cli.py` `_dict_to_fix`,
`common/fix_msg.py` `FixMessage._build_fix_string`)

A FIX message map is a Python dict with numeric-string keys; we carry it as
an association list `List (Nat × String)` with unique keys.  Values are
ASCII, so Python `len` (characters) and byte counts coincide. -/

/-- The SOH delimiter `chr(1)`. -/
def sohChar : Char := Char.ofNat 1

def sohStr : String := String.mk [sohChar]

/-- `chr(1).join(parts)`. -/
def joinSOH (parts : List String) : String :=
  String.intercalate sohStr parts

/-- `sum(ord(c) for c in s)`. -/
def strBytes (s : String) : Nat :=
  (s.data.map Char.toNat).sum

/-- Python `f"{n:03d}"` for a nonnegative value. -/
def fmt03 (n : Nat) : String :=
  let d := toString n
  String.mk (List.replicate (3 - d.length) '0') ++ d

/-- `FixClient._calculate_checksum` (fix_cli.py lines 339-344):
sum of all bytes modulo 256, three-digit zero-padded. -/
def checksumStr (s : String) : String :=
  fmt03 (strBytes s % 256)

/-- The sorted non-positional tags of `_dict_to_fix` (line 299):
`sorted((int(k), v) for k, v in message.items() if k not in ["8","9","10"])`.
Keys are unique, so sorting the pairs lexicographically equals any stable
sort by tag. -/
def fixOthers (m : List (Nat × String)) : List (Nat × String) :=
  List.insertionSort (fun p q => p.1 ≤ q.1)
    (m.filter (fun p => ¬(p.1 = 8 ∨ p.1 = 9 ∨ p.1 = 10)))

/-- The `body` string of `_dict_to_fix` (lines 304-310): the `8=` part
followed by the sorted remaining tags, joined by SOH.  Note that the `8=`
part is *itself a member of `parts`* in the source. -/
def fixBody (m : List (Nat × String)) (v8 : String) : String :=
  joinSOH (("8=" ++ v8) :: (fixOthers m).map (fun p => toString p.1 ++ "=" ++ p.2))

/-- `FixClient._dict_to_fix` (lines 296-320).  `message['8']` raises on a
map without tag 8: `none`. -/
def dictToFix (m : List (Nat × String)) : Option String :=
  match assocGet m 8 with
  | some v8 =>
    let body := fixBody m v8
    let fixStr := "8=" ++ v8 ++ sohStr ++ "9=" ++ toString body.length ++ sohStr
      ++ body ++ sohStr
    some (fixStr ++ "10=" ++ checksumStr fixStr ++ sohStr)
  | none => none

/-- The body of `FixMessage._build_fix_string` (fix_msg.py lines 218-222):
every field except 9 and 10 (tag 8 included), sorted by tag, joined by the
literal `"|"` and given a trailing `"|"`. -/
def buildBody (fields : List (Nat × String)) : String :=
  String.intercalate "|"
    ((List.insertionSort (fun p q => p.1 ≤ q.1)
        (fields.filter (fun p => ¬(p.1 = 9 ∨ p.1 = 10)))).map
      (fun p => toString p.1 ++ "=" ++ p.2)) ++ "|"

/-- `FixMessage._build_fix_string` (fix_msg.py lines 211-237): the frame is
`8=<version>|9=<len(body)>|<body>10=<cks>|`. -/
def buildFixString (version : String) (fields : List (Nat × String)) : String :=
  let body := buildBody fields
  let fixMsg := "8=" ++ version ++ "|9=" ++ toString body.length ++ "|" ++ body
  fixMsg ++ "10=" ++ fmt03 (strBytes fixMsg % 256) ++ "|"

/-! Executable frame inspectors used to state the refuted claims.  They are
written by structural recursion on the character list so that concrete
frames evaluate inside `decide`. -/

def splitSOHAux : List Char → List Char → List String
  | [], acc => [String.mk acc.reverse]
  | c :: rest, acc =>
    if c = sohChar then String.mk acc.reverse :: splitSOHAux rest []
    else splitSOHAux rest (c :: acc)

/-- Split a frame on SOH. -/
def splitSOH (s : String) : List String :=
  splitSOHAux s.data []

def strStarts (s pat : String) : Bool :=
  pat.data.isPrefixOf s.data

def digitsToNatAux : List Char → Nat → Option Nat
  | [], acc => some acc
  | c :: rest, acc =>
    if c.isDigit then digitsToNatAux rest (acc * 10 + (c.toNat - 48)) else none

/-- The numeric tag of a token of the form `<digits>=<value>`. -/
def tokenTag (tok : String) : Option Nat :=
  let ds := tok.data.takeWhile (fun c => c.isDigit)
  match tok.data.drop ds.length with
  | '=' :: _ => if ds.isEmpty then none else digitsToNatAux ds 0
  | _ => none

def strictIncr : List Nat → Bool
  | [] => true
  | [_] => true
  | a :: b :: rest => a < b && strictIncr (b :: rest)

/-- The frame shape asserted by the claim: tag 8 first, tag 9 second, tag 10
last, and between them every other tag exactly once in strictly increasing
numeric order (in particular none of 8, 9, 10 again). -/
def claimedFrameShape (s : String) : Bool :=
  match (splitSOH s).dropLast with
  | t8 :: t9 :: rest =>
    strStarts t8 "8=" && strStarts t9 "9=" &&
    (match rest.getLast? with
     | some tck => strStarts tck "10="
     | none => false) &&
    (let mtags := (rest.dropLast).map tokenTag
     mtags.all Option.isSome &&
       (let ts := mtags.reduceOption
        ts.all (fun t => t ≠ 8 && t ≠ 9 && t ≠ 10) && strictIncr ts))
  | _ => false

/-- Drop characters up to and including the first SOH. -/
def dropThroughSOH : List Char → List Char
  | [] => []
  | c :: rest => if c = sohChar then rest else dropThroughSOH rest

/-- First index at which `pat` occurs as a substring. -/
def idxOfSub : List Char → List Char → Option Nat
  | [], pat => if pat.isEmpty then some 0 else none
  | c :: rest, pat =>
    if pat.isPrefixOf (c :: rest) then some 0
    else (idxOfSub rest pat).map (· + 1)

/-- The number of bytes between the end of the `9=<n><SOH>` field and the
start of `10=` in a frame. -/
def gapAfter9 (s : String) : Option Nat :=
  idxOfSub (dropThroughSOH (dropThroughSOH s.data)) "10=".data

/-- The value carried by tag 9 (the second SOH-delimited token). -/
def reportedTag9 (s : String) : Option Nat :=
  match (splitSOH s).drop 1 with
  | t9 :: _ =>
    match t9.data with
    | '9' :: '=' :: ds => if ds.isEmpty then none else digitsToNatAux ds 0
    | _ => none
  | _ => none

instance : IsTotal (Nat × String) (fun p q => p.1 ≤ q.1) :=
  ⟨fun a b => le_total a.1 b.1⟩

instance : IsTrans (Nat × String) (fun p q => p.1 ≤ q.1) :=
  ⟨fun _ _ _ hab hbc => le_trans hab hbc⟩

/-- C4 (counterexample): on the message map
`{8: FIX.4.4, 35: A, 34: 7}` the encoder emits
`8=FIX.4.4<SOH>9=19<SOH>8=FIX.4.4<SOH>34=7<SOH>35=A<SOH>10=NNN<SOH>`:
the value of tag 8 appears a second time between tag 9 and tag 10, so the
claimed shape (every other tag exactly once, in increasing order, between
the three positional tags) is violated. -/
theorem dict_to_fix_duplicate_tag8 :
    ((dictToFix [(8, "FIX.4.4"), (35, "A"), (34, "7")]).map
      (fun s => (splitSOH s).take 3) =
      some ["8=FIX.4.4", "9=19", "8=FIX.4.4"]) ∧
    (dictToFix [(8, "FIX.4.4"), (35, "A"), (34, "7")]).map claimedFrameShape =
      some false :=
  ⟨by decide, by decide⟩

/-- C4 (amended): the encoded frame places tag 8 first, tag 9 second and
tag 10 last; between them the encoder emits the tag-8 part once more,
followed by every other tag exactly once in increasing numeric tag order
(the sorted tags are a permutation of the non-positional entries).  The
frame still begins with `8=` and ends with `10=NNN<SOH>`, but tag 8 is
emitted twice. -/
theorem dict_to_fix_frame_structure (m : List (Nat × String)) (v8 : String)
    (h8 : assocGet m 8 = some v8) :
    (∃ ck, dictToFix m =
      some ("8=" ++ v8 ++ sohStr ++ "9=" ++ toString (fixBody m v8).length
        ++ sohStr ++ fixBody m v8 ++ sohStr ++ "10=" ++ ck ++ sohStr)) ∧
    fixBody m v8 =
      joinSOH (("8=" ++ v8) ::
        (fixOthers m).map (fun p => toString p.1 ++ "=" ++ p.2)) ∧
    List.Sorted (fun p q : Nat × String => p.1 ≤ q.1) (fixOthers m) ∧
    (fixOthers m).Perm
      (m.filter (fun p => ¬(p.1 = 8 ∨ p.1 = 9 ∨ p.1 = 10))) := by
  refine ⟨?_, rfl, ?_, ?_⟩
  · refine ⟨checksumStr ("8=" ++ v8 ++ sohStr ++ "9="
      ++ toString (fixBody m v8).length ++ sohStr ++ fixBody m v8 ++ sohStr), ?_⟩
    unfold dictToFix
    rw [h8]
  · exact List.sorted_insertionSort _ _
  · exact List.perm_insertionSort _ _

/-- C4 witness for `dict_to_fix_frame_structure` at the concrete map
`{8: FIX.4.4, 35: A, 34: 7}`. -/
theorem dict_to_fix_frame_structure_witness :
    (∃ ck, dictToFix [(8, "FIX.4.4"), (35, "A"), (34, "7")] =
      some ("8=" ++ "FIX.4.4" ++ sohStr ++ "9="
        ++ toString (fixBody [(8, "FIX.4.4"), (35, "A"), (34, "7")] "FIX.4.4").length
        ++ sohStr ++ fixBody [(8, "FIX.4.4"), (35, "A"), (34, "7")] "FIX.4.4"
        ++ sohStr ++ "10=" ++ ck ++ sohStr)) ∧
    fixBody [(8, "FIX.4.4"), (35, "A"), (34, "7")] "FIX.4.4" =
      joinSOH (("8=" ++ "FIX.4.4") ::
        (fixOthers [(8, "FIX.4.4"), (35, "A"), (34, "7")]).map
          (fun p => toString p.1 ++ "=" ++ p.2)) ∧
    List.Sorted (fun p q : Nat × String => p.1 ≤ q.1)
      (fixOthers [(8, "FIX.4.4"), (35, "A"), (34, "7")]) ∧
    (fixOthers [(8, "FIX.4.4"), (35, "A"), (34, "7")]).Perm
      ([(8, "FIX.4.4"), (35, "A"), (34, "7")].filter
        (fun p => ¬(p.1 = 8 ∨ p.1 = 9 ∨ p.1 = 10))) :=
  dict_to_fix_frame_structure [(8, "FIX.4.4"), (35, "A"), (34, "7")] "FIX.4.4" rfl

/-- C5 (counterexample): on `{8: FIX.4.4, 35: A, 34: 7}` the value written
as tag 9 is 19, but the frame holds 20 bytes between the end of the
`9=19<SOH>` field and the start of `10=` (the SOH terminating the body is
not counted by the encoder). -/
theorem dict_to_fix_body_length_off_by_one :
    ((dictToFix [(8, "FIX.4.4"), (35, "A"), (34, "7")]).bind reportedTag9 =
      some 19) ∧
    ((dictToFix [(8, "FIX.4.4"), (35, "A"), (34, "7")]).bind gapAfter9 =
      some 20) ∧ (19 : Nat) ≠ 20 :=
  ⟨by decide, by decide, by decide⟩

/-- C5 (amended): `FixClient._dict_to_fix` writes as tag 9 one byte fewer
than the span between the end of the `9=<n><SOH>` field and the start of
`10=` (it omits the SOH that terminates the body), while
`FixMessage._build_fix_string` writes exactly that span (its body carries
the trailing delimiter). -/
theorem body_length_reported_vs_actual :
    (∀ (m : List (Nat × String)) (v8 : String), assocGet m 8 = some v8 →
      ∃ mid ck, dictToFix m =
        some ("8=" ++ v8 ++ sohStr ++ "9=" ++ toString (mid.length - 1)
          ++ sohStr ++ mid ++ "10=" ++ ck ++ sohStr) ∧
        1 ≤ mid.length ∧ mid.length - 1 = (fixBody m v8).length) ∧
    (∀ (version : String) (fields : List (Nat × String)),
      ∃ mid ck, buildFixString version fields =
        "8=" ++ version ++ "|9=" ++ toString mid.length ++ "|" ++ mid
          ++ "10=" ++ ck ++ "|") := by
  constructor
  · intro m v8 h8
    refine ⟨fixBody m v8 ++ sohStr,
      checksumStr ("8=" ++ v8 ++ sohStr ++ "9="
        ++ toString (fixBody m v8).length ++ sohStr ++ fixBody m v8 ++ sohStr),
      ?_, ?_, ?_⟩
    · have hlen : (fixBody m v8 ++ sohStr).length - 1 = (fixBody m v8).length := by
        simp [String.length_append, sohStr]
      rw [hlen]
      unfold dictToFix
      rw [h8]
      simp [String.append_assoc]
    · simp [String.length_append, sohStr]
    · simp [String.length_append, sohStr]
  · intro version fields
    exact ⟨buildBody fields,
      fmt03 (strBytes ("8=" ++ version ++ "|9="
        ++ toString (buildBody fields).length ++ "|" ++ buildBody fields) % 256),
      rfl⟩

/-- C5 witness for `body_length_reported_vs_actual`: both branches applied
at `{8: FIX.4.4, 35: A, 34: 7}` resp. version `FIX.4.4` with fields
`{8: FIX.4.4, 35: A}`. -/
theorem body_length_reported_vs_actual_witness :
    (∃ mid ck, dictToFix [(8, "FIX.4.4"), (35, "A"), (34, "7")] =
      some ("8=" ++ "FIX.4.4" ++ sohStr ++ "9=" ++ toString (mid.length - 1)
        ++ sohStr ++ mid ++ "10=" ++ ck ++ sohStr) ∧
      1 ≤ mid.length ∧
      mid.length - 1 =
        (fixBody [(8, "FIX.4.4"), (35, "A"), (34, "7")] "FIX.4.4").length) ∧
    (∃ mid ck, buildFixString "FIX.4.4" [(8, "FIX.4.4"), (35, "A")] =
      "8=" ++ "FIX.4.4" ++ "|9=" ++ toString mid.length ++ "|" ++ mid
        ++ "10=" ++ ck ++ "|") :=
  ⟨body_length_reported_vs_actual.1 [(8, "FIX.4.4"), (35, "A"), (34, "7")]
      "FIX.4.4" rfl,
   body_length_reported_vs_actual.2 "FIX.4.4" [(8, "FIX.4.4"), (35, "A")]⟩

/-! ## ESP client sequence numbers (`common/ahd_cli.py`, `_prepare_msg`)

The sequence-number accounting of `_prepare_msg` (lines 217-282) for a send
whose header fields are left null by the caller.  What matters for the
claim is which middle layer the outgoing message carries. -/

inductive SendKind : Type
  | orderO : SendKind
  | orderQ : SendKind
  | other : SendKind
  deriving DecidableEq

/-- The sender-side counters: `last_sent_seq_no` (reset to 0 in `start()`)
and `last_sent_order_entry_seq_no` (0 from `__init__`). -/
structure AHDSendState : Type where
  lastSentSeqNo : Nat
  lastSentOrderEntrySeqNo : Nat
  deriving DecidableEq

/-- The sequence numbers stamped into one outgoing message. -/
structure PrepOut : Type where
  seqNo : Nat
  orderEntrySeqNo : Option Nat
  deriving DecidableEq

/-- `AHDClient._prepare_msg` with null header fields:
`SeqNo := last_sent_seq_no + 1` then `last_sent_seq_no := SeqNo`
(lines 232-233, 252); if an `OrderCommonO` or `OrderCommonQ` layer is
present, `OrderEntrySeqNo := last_sent_order_entry_seq_no + 1`, and the
counter advances only when the layer is `OrderCommonO` (lines 270-275). -/
def prepareMsg (k : SendKind) (st : AHDSendState) : PrepOut × AHDSendState :=
  let seqNo := st.lastSentSeqNo + 1
  let st := { st with lastSentSeqNo := seqNo }
  match k with
  | SendKind.orderO =>
    let oesn := st.lastSentOrderEntrySeqNo + 1
    (⟨seqNo, some oesn⟩, { st with lastSentOrderEntrySeqNo := oesn })
  | SendKind.orderQ =>
    let oesn := st.lastSentOrderEntrySeqNo + 1
    (⟨seqNo, some oesn⟩, st)
  | SendKind.other => (⟨seqNo, none⟩, st)

/-- A sequence of sends within one connection. -/
def runSends : List SendKind → AHDSendState → List (SendKind × PrepOut) × AHDSendState
  | [], st => ([], st)
  | k :: ks, st =>
    let out := prepareMsg k st
    let rest := runSends ks out.2
    ((k, out.1) :: rest.1, rest.2)

/-- Counter state right after `start()`. -/
def initAHD : AHDSendState := ⟨0, 0⟩

theorem runSends_spec (ks : List SendKind) (st : AHDSendState) :
    ((runSends ks st).1.map (fun p => p.2.seqNo))
      = List.range' (st.lastSentSeqNo + 1) ks.length ∧
    (((runSends ks st).1.filter (fun p => p.1 == SendKind.orderO)).map
        (fun p => p.2.orderEntrySeqNo))
      = (List.range' (st.lastSentOrderEntrySeqNo + 1)
          (ks.count SendKind.orderO)).map some ∧
    (runSends ks st).2.lastSentSeqNo = st.lastSentSeqNo + ks.length ∧
    (runSends ks st).2.lastSentOrderEntrySeqNo
      = st.lastSentOrderEntrySeqNo + ks.count SendKind.orderO := by
  induction ks generalizing st with
  | nil => simp [runSends]
  | cons k ks ih =>
    cases k
    case orderO =>
      obtain ⟨h1, h2, h3, h4⟩ :=
        ih ⟨st.lastSentSeqNo + 1, st.lastSentOrderEntrySeqNo + 1⟩
      refine ⟨?_, ?_, ?_, ?_⟩
      · simpa [runSends, prepareMsg, List.range'_succ] using h1
      · simpa [runSends, prepareMsg, List.range'_succ, List.count_cons,
          List.filter_cons, Nat.add_comm, Nat.add_left_comm] using h2
      · simpa [runSends, prepareMsg, Nat.add_comm, Nat.add_left_comm] using h3
      · simpa [runSends, prepareMsg, List.count_cons, Nat.add_comm,
          Nat.add_left_comm] using h4
    case orderQ =>
      obtain ⟨h1, h2, h3, h4⟩ :=
        ih ⟨st.lastSentSeqNo + 1, st.lastSentOrderEntrySeqNo⟩
      refine ⟨?_, ?_, ?_, ?_⟩
      · simpa [runSends, prepareMsg, List.range'_succ] using h1
      · simpa [runSends, prepareMsg, List.count_cons] using h2
      · simpa [runSends, prepareMsg, Nat.add_comm, Nat.add_left_comm] using h3
      · simpa [runSends, prepareMsg, List.count_cons] using h4
    case other =>
      obtain ⟨h1, h2, h3, h4⟩ :=
        ih ⟨st.lastSentSeqNo + 1, st.lastSentOrderEntrySeqNo⟩
      refine ⟨?_, ?_, ?_, ?_⟩
      · simpa [runSends, prepareMsg, List.range'_succ] using h1
      · simpa [runSends, prepareMsg, List.count_cons] using h2
      · simpa [runSends, prepareMsg, Nat.add_comm, Nat.add_left_comm] using h3
      · simpa [runSends, prepareMsg, List.count_cons] using h4

/-- C6: from a fresh connection, over any sequence of sends whose callers
leave the header fields null, the outgoing `ESPCommon.SeqNo` values form
`1, 2, 3, …`; the `OrderEntrySeqNo` values carried by the `OrderCommonO`
sends form `1, 2, 3, …` in turn, and the order-entry counter after the run
equals the number of `OrderCommonO` sends — it never advances on an
`OrderCommonQ` query or any other send. -/
theorem esp_seq_no_sequences (ks : List SendKind) :
    ((runSends ks initAHD).1.map (fun p => p.2.seqNo))
      = List.range' 1 ks.length ∧
    (((runSends ks initAHD).1.filter (fun p => p.1 == SendKind.orderO)).map
        (fun p => p.2.orderEntrySeqNo))
      = (List.range' 1 (ks.count SendKind.orderO)).map some ∧
    (runSends ks initAHD).2.lastSentOrderEntrySeqNo
      = ks.count SendKind.orderO := by
  obtain ⟨h1, h2, h3, h4⟩ := runSends_spec ks initAHD
  exact ⟨h1, h2, by simpa [initAHD] using h4⟩

/-! ## FIX client sequence numbers (`common/fix_cli.py`,
`send_message` / `_create_message`) -/

/-- The FIX session send-side state: `out_seq_num` starts at 1. -/
structure FixClientState : Type where
  outSeqNum : Nat
  deriving DecidableEq

/-- `FixClient._create_message` (lines 283-294): a base message carrying
`8`, `35`, `49`, `56`, `34 = str(out_seq_num)` and `52`; note that it does
*not* advance `out_seq_num`. -/
def createMessage (msgType senderCompId targetCompId now : String)
    (st : FixClientState) : List (Nat × String) :=
  [(8, "FIX.4.4"), (35, msgType), (49, senderCompId), (56, targetCompId),
   (34, toString st.outSeqNum), (52, now)]

/-- `FixClient.send_message` (lines 149-173): fill each header field only if
absent — in particular `34` is populated from `out_seq_num` and the counter
incremented *only when the message does not already carry tag 34* — then
store the checksum under tag 10.  Returns the final message map and the new
state. -/
def sendMessage (m : List (Nat × String))
    (senderCompId targetCompId now : String) (st : FixClientState) :
    List (Nat × String) × FixClientState :=
  let m := if (assocGet m 8).isNone then assocInsert m 8 "FIX.4.4" else m
  let m := if (assocGet m 49).isNone then assocInsert m 49 senderCompId else m
  let m := if (assocGet m 56).isNone then assocInsert m 56 targetCompId else m
  let step :=
    if (assocGet m 34).isNone then
      (assocInsert m 34 (toString st.outSeqNum),
       { st with outSeqNum := st.outSeqNum + 1 })
    else (m, st)
  let m := step.1
  let st := step.2
  let m := if (assocGet m 52).isNone then assocInsert m 52 now else m
  let m := match dictToFix m with
    | some f => assocInsert m 10 (checksumStr f)
    | none => m
  (m, st)

/-- C7 (code bug, evaluation at the failing input): `logon()` builds its
message through `_create_message`, which already carries `34 = "1"`, so
`send_message` does not advance `out_seq_num`; a following
`send_heartbeat()` (again via `_create_message`) therefore also carries
`34 = "1"` — two messages on one session with the same MsgSeqNum, against
the claimed strict monotonicity.  A message sent *without* a pre-set tag 34
does take the populate-and-increment path. -/
theorem msg_seq_num_repeats :
    (assocGet (sendMessage (assocInsert (assocInsert
        (createMessage "A" "S" "T" "NOW" ⟨1⟩) 98 "0") 108 "30")
        "S" "T" "NOW" ⟨1⟩).1 34 = some "1") ∧
    ((sendMessage (assocInsert (assocInsert
        (createMessage "A" "S" "T" "NOW" ⟨1⟩) 98 "0") 108 "30")
        "S" "T" "NOW" ⟨1⟩).2.outSeqNum = 1) ∧
    (assocGet (sendMessage (createMessage "0" "S" "T" "NOW" ⟨1⟩)
        "S" "T" "NOW" ⟨1⟩).1 34 = some "1") ∧
    (assocGet (sendMessage [(35, "D"), (11, "ORD1")] "S" "T" "NOW" ⟨1⟩).1 34
      = some "1") ∧
    ((sendMessage [(35, "D"), (11, "ORD1")] "S" "T" "NOW" ⟨1⟩).2.outSeqNum = 2) :=
  ⟨by decide, by decide, by decide, by decide, by decide⟩

/-! ## ESP header length patching (`common/ahd_msg.py`, `post_build`)

Fixed-width ASCII field encoders from `common/scapy_utils.py`. -/

def spaces (w : Nat) : String := String.mk (List.replicate w ' ')

/-- `x.rjust(w, ' ')[:w]`. -/
def rjustTrunc (w : Nat) (s : String) : String :=
  String.mk ((List.replicate (w - s.length) ' ' ++ s.data).take w)

/-- `x.ljust(w, ' ')[:w]` with the `None → ""` sentinel. -/
def rpadTrunc (w : Nat) (o : Option String) : String :=
  let x := o.getD ""
  String.mk ((x.data ++ List.replicate (w - x.length) ' ').take w)

/-- `LPaddedAsciiIntFixedLenField.i2m`: `str(x)` left-padded with spaces
(`None` encodes as all spaces via the `""` sentinel). -/
def intField (w : Nat) : Option Int → String
  | none => rjustTrunc w ""
  | some v => rjustTrunc w (toString v)

/-- A `StrFixedLenField`-style slot carrying pre-rendered text (dates and
times are carried already rendered to their 8/12-character form); `None`
encodes as all spaces. -/
def strField (w : Nat) : Option String → String
  | none => spaces w
  | some x => x

/-- Python `f"{n:5d}"`: space-padded to a minimum width of 5 (the width is
a minimum, large values are not truncated). -/
def fmtInt5 (v : Int) : String :=
  let d := toString v
  String.mk (List.replicate (5 - d.length) ' ') ++ d

/-- Python `p[a:b]` on a byte string. -/
def strSlice (s : String) (a b : Nat) : String :=
  String.mk ((s.data.drop a).take (b - a))

/-- Python `p[a:]`. -/
def strSliceFrom (s : String) (a : Nat) : String :=
  String.mk (s.data.drop a)

/-- The `ESPCommon` header fields (ahd_msg.py lines 342-358), with the
source defaults. -/
structure ESPCommonFields : Type where
  messageLength : Option Int := none
  messageType : String := "  "
  seqNo : Option Int := none
  resendFlag : String := "0"
  participantCode : Option String := none
  virtualServerNo : Option String := none
  armsn : Option Int := none
  samsn : Option Int := none
  dataAreaLength : Option Int := none
  numberOfDataTransactions : Option Int := some 1
  transmissionDate : Option String := none
  transmissionTime : Option String := none
  reserved : String := " "
  deriving DecidableEq

/-- Header bytes strictly between the `MessageLength` and `DataAreaLength`
slots (the `p[5:43]` region when every slot has its declared width). -/
def espMid (f : ESPCommonFields) : String :=
  f.messageType ++ intField 8 f.seqNo ++ f.resendFlag
    ++ rpadTrunc 5 f.participantCode ++ rpadTrunc 6 f.virtualServerNo
    ++ intField 8 f.armsn ++ intField 8 f.samsn

/-- Header bytes after the `DataAreaLength` slot (the `p[48:]` region). -/
def espTail (f : ESPCommonFields) : String :=
  intField 3 f.numberOfDataTransactions ++ strField 8 f.transmissionDate
    ++ strField 12 f.transmissionTime ++ f.reserved

/-- The serialized `ESPCommon` header in declaration order. -/
def serializeESP (f : ESPCommonFields) : String :=
  intField 5 f.messageLength ++ espMid f
    ++ intField 5 f.dataAreaLength ++ espTail f

/-- `ESPCommon.post_build` (lines 360-369): patch bytes `[0:5)` with the
recomputed total length and bytes `[43:48)` with the payload length,
*unconditionally*. -/
def espPostBuild (p payload : String) : String :=
  fmtInt5 ((p.length : Int) + payload.length - 5) ++ strSlice p 5 43
    ++ fmtInt5 (payload.length : Int) ++ strSliceFrom p 48 ++ payload

def espBuild (f : ESPCommonFields) (payload : String) : String :=
  espPostBuild (serializeESP f) payload

/-- The `OrderCommon` header fields (lines 826-838), with the source
defaults. -/
structure OrderCommonFields : Type where
  dataLen : Option Int := none
  dataCode : Option String := none
  exchangeCode : Option String := none
  marketCode : Option String := none
  participantCode : Option String := none
  virtualServerNo : Option String := none
  reserved : String := "      "
  orderEntrySeqNo : Option Int := none
  reserved2 : String := "     "
  deriving DecidableEq

def serializeOrderCommon (g : OrderCommonFields) : String :=
  intField 5 g.dataLen ++ rpadTrunc 4 g.dataCode ++ rpadTrunc 1 g.exchangeCode
    ++ rpadTrunc 2 g.marketCode ++ rpadTrunc 5 g.participantCode
    ++ rpadTrunc 6 g.virtualServerNo ++ g.reserved
    ++ intField 8 g.orderEntrySeqNo ++ g.reserved2

/-- `OrderCommon.post_build` (lines 840-843): the length prefix is
recomputed *only when `DataLen` is unset*; a user-provided value is kept. -/
def orderCommonBuild (g : OrderCommonFields) (payload : String) : String :=
  let p := serializeOrderCommon g
  match g.dataLen with
  | none => fmtInt5 ((p.length : Int) + payload.length - 5)
      ++ strSliceFrom p 5 ++ payload
  | some _ => p ++ payload

theorem mk_length (l : List Char) : (String.mk l).length = l.length := rfl

theorem data_append (s t : String) : (s ++ t).data = s.data ++ t.data := rfl

theorem length_eq_data_length (s : String) : s.length = s.data.length := rfl

theorem intField_length (w : Nat) (o : Option Int) : (intField w o).length = w := by
  cases o with
  | none =>
    simp [intField, rjustTrunc, mk_length]
  | some v =>
    have hh : (toString v).data.length = (toString v).length := rfl
    simp only [intField, rjustTrunc, mk_length, List.length_take,
      List.length_append, List.length_replicate]
    omega

theorem slice5_43_of_concat {a b c d : List Char}
    (ha : a.length = 5) (hb : b.length = 38) :
    ((a ++ b ++ c ++ d).drop 5).take 38 = b := by
  rw [List.append_assoc, List.append_assoc, ← ha, List.drop_left, ← hb,
    List.take_left]

theorem drop48_of_concat {a b c d : List Char}
    (ha : a.length = 5) (hb : b.length = 38) (hc : c.length = 5) :
    (a ++ b ++ c ++ d).drop 48 = d := by
  have habc : (a ++ b ++ c).length = 48 := by
    simp [ha, hb, hc]
  rw [show a ++ b ++ c ++ d = (a ++ b ++ c) ++ d from by simp, ← habc,
    List.drop_left]

/-- With every slot at its declared width, `espBuild` splits into the
recomputed `MessageLength`, the untouched middle bytes, the recomputed
`DataAreaLength`, the untouched trailing bytes and the payload. -/
theorem espBuild_parts (f : ESPCommonFields) (payload : String)
    (hmid : (espMid f).length = 38) (htail : (espTail f).length = 24) :
    espBuild f payload
      = fmtInt5 ((72 : Int) + payload.length - 5) ++ espMid f
        ++ fmtInt5 (payload.length : Int) ++ espTail f ++ payload := by
  have ha : (intField 5 f.messageLength).length = 5 := intField_length _ _
  have hc : (intField 5 f.dataAreaLength).length = 5 := intField_length _ _
  have hdata : (serializeESP f).data
      = (intField 5 f.messageLength).data ++ (espMid f).data
        ++ (intField 5 f.dataAreaLength).data ++ (espTail f).data := by
    simp [serializeESP, data_append]
  have hplen : (serializeESP f).length = 72 := by
    rw [length_eq_data_length, hdata]
    simp only [List.length_append]
    rw [← length_eq_data_length, ← length_eq_data_length,
      ← length_eq_data_length, ← length_eq_data_length]
    omega
  have hslice : strSlice (serializeESP f) 5 43 = espMid f := by
    unfold strSlice
    rw [hdata]
    rw [show (43 : Nat) - 5 = 38 from rfl]
    rw [slice5_43_of_concat (by rw [← length_eq_data_length]; exact ha)
      (by rw [← length_eq_data_length]; exact hmid)]
  have hfrom : strSliceFrom (serializeESP f) 48 = espTail f := by
    unfold strSliceFrom
    rw [hdata]
    rw [drop48_of_concat (by rw [← length_eq_data_length]; exact ha)
      (by rw [← length_eq_data_length]; exact hmid)
      (by rw [← length_eq_data_length]; exact hc)]
  unfold espBuild espPostBuild
  rw [hslice, hfrom, hplen]
  norm_num

/-- C8 (counterexample): an `OrderCommon` header built with `DataLen`
forced to `7` and a 2-byte payload keeps the forced `    7` prefix, whereas
the recomputed value would be `   39` — the user-provided value is *not*
ignored for `OrderCommon.DataLen`. -/
theorem order_datalen_forced_value_kept :
    ((orderCommonBuild { dataLen := some 7 } "AB").data.take 5
      = "    7".data) ∧
    ((orderCommonBuild { dataLen := none } "AB").data.take 5
      = "   39".data) ∧
    ("    7" : String) ≠ "   39" :=
  ⟨by decide, by decide, by decide⟩

/-- C8 (amended): `ESPCommon.post_build` recomputes `MessageLength`
(total frame bytes minus 5) and `DataAreaLength` (payload bytes)
unconditionally — any value forced on those fields before build is ignored
— but `OrderCommon.post_build` recomputes `DataLen` only when it is unset:
a forced `DataLen` is kept verbatim in the emitted bytes. -/
theorem esp_lengths_recomputed_but_order_datalen_kept :
    (∀ (f : ESPCommonFields) (payload : String) (v w : Option Int),
      (espMid f).length = 38 → (espTail f).length = 24 →
      espBuild { f with messageLength := v, dataAreaLength := w } payload
        = espBuild f payload ∧
      espBuild { f with messageLength := v, dataAreaLength := w } payload
        = fmtInt5 ((72 : Int) + payload.length - 5) ++ espMid f
          ++ fmtInt5 (payload.length : Int) ++ espTail f ++ payload) ∧
    (∀ (g : OrderCommonFields) (payload : String) (v : Int),
      g.dataLen = some v →
      orderCommonBuild g payload = serializeOrderCommon g ++ payload ∧
      (serializeOrderCommon g).data.take 5 = (intField 5 (some v)).data) := by
  constructor
  · intro f payload v w hmid htail
    have hmid' : (espMid { f with messageLength := v, dataAreaLength := w }).length
        = 38 := hmid
    have htail' : (espTail { f with messageLength := v, dataAreaLength := w }).length
        = 24 := htail
    have h1 := espBuild_parts { f with messageLength := v, dataAreaLength := w }
      payload hmid' htail'
    have h2 := espBuild_parts f payload hmid htail
    have hm : espMid { f with messageLength := v, dataAreaLength := w }
        = espMid f := rfl
    have ht : espTail { f with messageLength := v, dataAreaLength := w }
        = espTail f := rfl
    constructor
    · rw [h1, h2, hm, ht]
    · rw [h1, hm, ht]
  · intro g payload v hv
    constructor
    · unfold orderCommonBuild
      rw [hv]
    · have : (serializeOrderCommon g).data
          = (intField 5 g.dataLen).data
            ++ (rpadTrunc 4 g.dataCode ++ rpadTrunc 1 g.exchangeCode
              ++ rpadTrunc 2 g.marketCode ++ rpadTrunc 5 g.participantCode
              ++ rpadTrunc 6 g.virtualServerNo ++ g.reserved
              ++ intField 8 g.orderEntrySeqNo ++ g.reserved2).data := by
        simp [serializeOrderCommon, data_append]
      rw [this, hv]
      have hlen : (intField 5 (some v)).data.length = 5 := by
        rw [← length_eq_data_length]
        exact intField_length _ _
      exact List.take_left' hlen

/-- C8 witness for `esp_lengths_recomputed_but_order_datalen_kept`: forcing
`MessageLength := 11111` and `DataAreaLength := 22222` on a default header
changes nothing, and a forced `OrderCommon.DataLen = 7` survives into the
first five emitted bytes. -/
theorem esp_lengths_recomputed_witness :
    (espBuild { messageLength := some 11111, dataAreaLength := some 22222 } "PAY"
      = espBuild ({} : ESPCommonFields) "PAY" ∧
    espBuild { messageLength := some 11111, dataAreaLength := some 22222 } "PAY"
      = fmtInt5 ((72 : Int) + ("PAY" : String).length - 5)
        ++ espMid ({} : ESPCommonFields)
        ++ fmtInt5 (("PAY" : String).length : Int)
        ++ espTail ({} : ESPCommonFields) ++ "PAY") ∧
    (orderCommonBuild { dataLen := some 7 } "AB"
      = serializeOrderCommon { dataLen := some 7 } ++ "AB" ∧
    (serializeOrderCommon ({ dataLen := some 7 } : OrderCommonFields)).data.take 5
      = (intField 5 (some 7)).data) :=
  ⟨esp_lengths_recomputed_but_order_datalen_kept.1 ({} : ESPCommonFields)
      "PAY" (some 11111) (some 22222) (by decide) (by decide),
   esp_lengths_recomputed_but_order_datalen_kept.2 { dataLen := some 7 }
      "AB" 7 rfl⟩

end AutoTestPoc
